import Mathlib

/-!
Verification of the annotation-export pipeline of `export-kobo.py`.

The Python program is shallowly embedded: each class and function of the
source is translated into a Lean definition with the same name where the
token rules of Lean allow it.  Database rows are modelled as records whose
fields follow the fixed positional column order of the items query
(`values[0] .. values[12]` in `Item.__init__`); SQL `NULL` becomes `none`.
Python truthiness (`if values[1]`, `if colors`, `elif args.bookid`) is made
explicit through dedicated helper functions.  Python's `sorted`/`list.sort`
are stable sorts; they are modelled by a structurally recursive stable
insertion sort (`sortStable`), which has the same extensional behaviour as
any stable sort.  `sys.exit(1)` with a diagnostic on stderr is modelled as
`Except.error` carrying the diagnostic text.

The float-valued `chapter_progress` column is only ever interpolated into a
debug string by the program, so it is carried as its display text here.
-/

namespace ExportKobo

/-- Python truthiness of an optional string: `None` and `""` are falsy. -/
def truthyOptStr : Option String → Bool
  | none => false
  | some s => !(s == "")

/-- Python truthiness of an optional integer: `None` and `0` are falsy. -/
def truthyOptInt : Option Int → Bool
  | none => false
  | some n => !(n == 0)

/-- Python f-string display of an optional string: `None` prints as `"None"`. -/
def pyShowOptStr : Option String → String
  | none => "None"
  | some s => s

/-- Python `str.strip()` (and the redundant `.rstrip()` after it): remove
whitespace from both ends.  Written structurally over the character list so
that it evaluates by kernel reduction; the whitespace set is the ASCII one
of `Char.isWhitespace`, which agrees with Python on the characters the
program ever meets. -/
def pyStrip (s : String) : String :=
  String.mk (((s.data.dropWhile Char.isWhitespace).reverse.dropWhile Char.isWhitespace).reverse)

/-- One row of the items query, in the fixed positional column order
`b.VolumeID, b.Text, b.Annotation, b.DateCreated, b.DateModified,
b.ChapterProgress, c.BookTitle, c.Title as Chapter, c.Attribution as Author,
b.BookmarkID, b.StartOffset, c.VolumeIndex, b.Color`.
The field `annot` models the source's `Annotation` column (`values[2]`). -/
structure Row where
  volumeid : String
  text : Option String
  annot : Option String
  datecreated : Option String
  datemodified : Option String
  chapter_progress : Option String
  booktitle : Option String
  chapter : Option String
  attribution : Option String
  bookmarkid : Option String
  start_offset : Option Int
  volume_index : Option Int
  color : Option Int
  deriving DecidableEq, Repr

/-- The entity built by `Item.__init__`.  The field `annot` models the
source's `self.annotation`; `kind` is one of the three strings
`"bookmark"`, `"highlight"`, `"annotation"` (the source's class constants,
inlined here as string literals). -/
structure Item where
  volumeid : String
  text : Option String
  annot : Option String
  datecreated : String
  chapter_progress : String
  chapter : Option String
  start_offset : Int
  volume_index : Int
  color : Int
  kind : String
  deriving DecidableEq, Repr

/-- The text assignment of `Item.__init__`:
`self.text = values[1].strip().rstrip() if values[1] else None`. -/
def Item.textOfRow (r : Row) : Option String :=
  if truthyOptStr r.text then some (pyStrip (r.text.getD "")) else none

/-- The classification block of `Item.__init__`: `self.kind = self.BOOKMARK`,
overridden to `ANNOTATION` when both `self.text` and `self.annotation` are
truthy, else to `HIGHLIGHT` when `self.text` is truthy. -/
def Item.kindOfRow (r : Row) : String :=
  if truthyOptStr (Item.textOfRow r) && truthyOptStr r.annot then "annotation"
  else if truthyOptStr (Item.textOfRow r) then "highlight"
  else "bookmark"

/-- Model of `Item.__init__(values, book)` (the `book` argument is unused by the
source).  The remaining fields substitute their defaults on `None`
(`is not None` checks, hence `Option.getD`). -/
def Item.ofRow (r : Row) : Item :=
  { volumeid := r.volumeid
    text := Item.textOfRow r
    annot := r.annot
    datecreated := r.datecreated.getD "1970-01-01T00:00:00.000"
    chapter_progress := r.chapter_progress.getD "0"
    chapter := r.chapter
    start_offset := r.start_offset.getD 0
    volume_index := r.volume_index.getD 0
    color := r.color.getD 0
    kind := Item.kindOfRow r }

/-- The `debug_info` text built by `Item.markdown` when `debug` is set. -/
def Item.debugInfo (it : Item) : String :=
  "\n>\n> **Debug:** kind=" ++ it.kind ++ ", volume_index=" ++ toString it.volume_index ++
  ", start_offset=" ++ toString it.start_offset ++ ", chapter_progress=" ++ it.chapter_progress ++
  ", datecreated=" ++ it.datecreated ++ ", color=" ++ toString it.color

/-- The `color_prefix` computation of `Item.markdown`:
`if colors and 0 <= self.color < len(colors)` — a truthiness test on the
list (`None` and `[]` are falsy) followed by the chained bound check. -/
def colorMark (colors : Option (List String)) (color : Int) : String :=
  match colors with
  | none => ""
  | some cs =>
      if !cs.isEmpty && decide (0 ≤ color) && decide (color < (cs.length : Int)) then
        cs.getD color.toNat "" ++ " "
      else ""

/-- Model of `Item.markdown(debug, colors)`. -/
def Item.markdown (it : Item) (debug : Bool) (colors : Option (List String)) : String :=
  let debug_info := if debug then it.debugInfo else ""
  let cmark := colorMark colors it.color
  if it.kind = "annotation" then
    "> " ++ cmark ++ pyShowOptStr it.text ++ debug_info ++ "\n\n- " ++ pyShowOptStr it.annot ++ "\n\n"
  else if it.kind = "highlight" then
    "> " ++ cmark ++ pyShowOptStr it.text ++ debug_info ++ "\n\n"
  else ""

/-- The `Book` entity (`Book.__init__`), from the books query row
`b.VolumeID, c.Title, c.Attribution as Author, Items`. -/
structure Book where
  volumeid : String
  title : Option String
  author : Option String
  itemscount : Int
  deriving DecidableEq, Repr

/-- Model of `Book.to_markdown`. -/
def Book.to_markdown (b : Book) : String :=
  "---\ntitle: " ++ pyShowOptStr b.title ++ "\nauthor: " ++ pyShowOptStr b.author ++
  "\n---\n# \"" ++ pyShowOptStr b.title ++ "\" by " ++ pyShowOptStr b.author ++ "\n"

/-- The join strategy of an items query. -/
inductive JoinKind where
  | inner
  | left
  deriving DecidableEq, Repr

/-- Shape of an items query: its selected columns in order, its join
strategy and its grouping/ordering clauses. -/
structure ItemsQuery where
  columns : List String
  join : JoinKind
  groupBy : String
  orderBy : List String
  deriving DecidableEq, Repr

/-- Model of `ExportKobo.QUERY_ITEMS_V175` (INNER JOIN variant). -/
def QUERY_ITEMS_V175 : ItemsQuery :=
  { columns := ["b.VolumeID", "b.Text", "b.Annotation", "b.DateCreated", "b.DateModified",
      "b.ChapterProgress", "c.BookTitle", "c.Title as Chapter", "c.Attribution as Author",
      "b.BookmarkID", "b.StartOffset", "c.VolumeIndex", "b.Color"]
    join := JoinKind.inner
    groupBy := "b.BookmarkID"
    orderBy := ["c.VolumeIndex ASC", "b.StartOffset ASC"] }

/-- Model of `ExportKobo.QUERY_ITEMS_V174` (LEFT JOIN variant). -/
def QUERY_ITEMS_V174 : ItemsQuery :=
  { columns := ["b.VolumeID", "b.Text", "b.Annotation", "b.DateCreated", "b.DateModified",
      "b.ChapterProgress", "c.BookTitle", "c.Title as Chapter", "c.Attribution as Author",
      "b.BookmarkID", "b.StartOffset", "c.VolumeIndex", "b.Color"]
    join := JoinKind.left
    groupBy := "b.BookmarkID"
    orderBy := ["c.VolumeIndex ASC", "b.StartOffset ASC"] }

/-- The query selection in `export_markdown`:
`query = self.QUERY_ITEMS_V175 if self.db_version == 175 else self.QUERY_ITEMS_V174`. -/
def selectItemsQuery (db_version : Int) : ItemsQuery :=
  if db_version = 175 then QUERY_ITEMS_V175 else QUERY_ITEMS_V174

/-- One step of the grouping loop of `export_markdown`: append `it` to the
bucket of its chapter, creating the bucket at the end on first encounter
(Python dicts preserve insertion order). -/
def addToGroup (acc : List (Option String × List Item)) (it : Item) :
    List (Option String × List Item) :=
  if acc.any (fun p => decide (p.1 = it.chapter)) then
    acc.map (fun p => if p.1 = it.chapter then (p.1, p.2 ++ [it]) else p)
  else
    acc ++ [(it.chapter, [it])]

/-- The grouping loop of `export_markdown` (`chapters = {}` plus the `for`
loop), as an insertion-ordered association list. -/
def groupByChapter (items : List Item) : List (Option String × List Item) :=
  items.foldl addToGroup []

/-- Python `min` over a list of integers (the source only applies it to
nonempty bucket contents; `0` on `[]` is an arbitrary total-function value). -/
def minList : List Int → Int
  | [] => 0
  | [x] => x
  | x :: y :: xs => min x (minList (y :: xs))

/-- Lookup of a chapter's bucket in the grouped association list
(`chapters[ch]`; `[]` on a missing key is an arbitrary total-function value). -/
def bucketOf (chapters : List (Option String × List Item)) (ch : Option String) : List Item :=
  ((chapters.find? (fun p => decide (p.1 = ch))).map Prod.snd).getD []

/-- The sort key of `sorted(chapters.keys(), key=...)`:
`min(i.volume_index for i in chapters[ch])`. -/
def chapterKey (chapters : List (Option String × List Item)) (ch : Option String) : Int :=
  minList ((bucketOf chapters ch).map Item.volume_index)

/-- Stable insertion of `a` into `l`: `a` is placed before the first
element `b` with `le a b`.  Elements equivalent to `a` that are already in
`l` therefore stay before `a` only if they were passed over, i.e. never;
combined with `sortStable`'s right fold this realises a stable sort. -/
def insertStable {α : Type} (le : α → α → Bool) (a : α) : List α → List α
  | [] => [a]
  | b :: bs => if le a b then a :: b :: bs else b :: insertStable le a bs

/-- Stable sort, modelling Python's stable `sorted`/`list.sort`. -/
def sortStable {α : Type} (le : α → α → Bool) : List α → List α
  | [] => []
  | a :: as => insertStable le a (sortStable le as)

/-- Model of `sorted(chapters.keys(), key=lambda ch: min(i.volume_index for i in chapters[ch]))`. -/
def sortedChapterKeys (chapters : List (Option String × List Item)) : List (Option String) :=
  sortStable (fun c1 c2 => decide (chapterKey chapters c1 ≤ chapterKey chapters c2))
    (chapters.map Prod.fst)

/-- Model of `chapters[chapter].sort(key=lambda i: i.start_offset)`. -/
def sortBucket (l : List Item) : List Item :=
  sortStable (fun a b => decide (a.start_offset ≤ b.start_offset)) l

/-- The output-assembly tail of `export_markdown`: header, then for each
chapter in sorted order a level-3 heading followed by each item's markdown
in intra-chapter order. -/
def renderBook (book : Book) (items : List Item) (debug : Bool)
    (colors : Option (List String)) : String :=
  let chapters := groupByChapter items
  let sorted_chapters := sortedChapterKeys chapters
  Book.to_markdown book ++ String.join (sorted_chapters.map (fun ch =>
    "\n### " ++ pyShowOptStr ch ++ "\n\n" ++
    String.join ((sortBucket (bucketOf chapters ch)).map
      (fun it => it.markdown debug colors))))

/-- Placeholder book for the total-function reading of `self.books[book_id - 1]`
(never reached when `book_id` is in range). -/
def defaultBook : Book := { volumeid := "", title := none, author := none, itemscount := 0 }

/-- Model of `ExportKobo.export_markdown(book_id, debug, colors)`.  `books` is the
loaded catalog, `rows` the result set of the selected items query (the
database is an external row-producing service).  The range failure
(`sys.exit(1)` after the stderr diagnostic) is `Except.error` with the
diagnostic text; success carries the assembled document. -/
def export_markdown (books : List Book) (rows : List Row) (book_id : Int)
    (debug : Bool) (colors : Option (List String)) : Except String String :=
  if book_id < 1 ∨ book_id > (books.length : Int) then
    Except.error ("Error: bookid must be between 1 and " ++ toString books.length)
  else
    let book := books.getD (book_id - 1).toNat defaultBook
    let items := (rows.map Item.ofRow).filter (fun i => decide (i.volumeid = book.volumeid))
    Except.ok (renderBook book items debug colors)

/-- The parsed command-line arguments relevant to flag validation. -/
structure Args where
  list : Bool
  bookid : Option Int
  debug : Bool
  colors : Option String
  no_colors : Bool
  deriving DecidableEq, Repr

/-- What `main` does after parsing. -/
inductive MainAction where
  | usageExit
  | listBooks
  | exportBook (id : Int)
  | noop
  deriving DecidableEq, Repr

/-- The dispatch logic of `main`:
`if not args.list and args.bookid is None: print_help; exit(1)`, then
`if args.list: ... elif args.bookid: ...` (the `elif` tests Python
truthiness of the integer, so `--bookid 0` falls through and does nothing). -/
def mainAction (a : Args) : MainAction :=
  if !a.list && a.bookid.isNone then MainAction.usageExit
  else if a.list then MainAction.listBooks
  else if truthyOptInt a.bookid then MainAction.exportBook (a.bookid.getD 0)
  else MainAction.noop

/-! ### Properties of the stable sort -/

theorem insertStable_perm {α : Type} (le : α → α → Bool) (a : α) (l : List α) :
    (insertStable le a l).Perm (a :: l) := by
  induction l with
  | nil => exact List.Perm.refl _
  | cons b bs ih =>
      simp only [insertStable]
      split
      · exact List.Perm.refl _
      · exact (ih.cons b).trans (List.Perm.swap a b bs)

theorem sortStable_perm {α : Type} (le : α → α → Bool) (l : List α) :
    (sortStable le l).Perm l := by
  induction l with
  | nil => exact List.Perm.refl _
  | cons a as ih => exact (insertStable_perm le a (sortStable le as)).trans (ih.cons a)

theorem mem_insertStable {α : Type} {le : α → α → Bool} {a x : α} {l : List α} :
    x ∈ insertStable le a l ↔ x = a ∨ x ∈ l :=
  (insertStable_perm le a l).mem_iff.trans List.mem_cons

theorem pairwise_insertStable {α : Type} (le : α → α → Bool)
    (htrans : ∀ a b c, le a b = true → le b c = true → le a c = true)
    (htotal : ∀ a b, le a b = true ∨ le b a = true)
    (a : α) (l : List α) (h : l.Pairwise (fun x y => le x y = true)) :
    (insertStable le a l).Pairwise (fun x y => le x y = true) := by
  induction l with
  | nil => simp [insertStable]
  | cons b bs ih =>
      rw [List.pairwise_cons] at h
      obtain ⟨hb, hbs⟩ := h
      simp only [insertStable]
      split
      case isTrue hab =>
          refine List.pairwise_cons.mpr ⟨?_, List.pairwise_cons.mpr ⟨hb, hbs⟩⟩
          intro x hx
          rcases List.mem_cons.mp hx with rfl | hx
          · exact hab
          · exact htrans a b x hab (hb x hx)
      case isFalse hab =>
          refine List.pairwise_cons.mpr ⟨?_, ih hbs⟩
          intro x hx
          rcases mem_insertStable.mp hx with h | hx
          · rw [h]
            rcases htotal a b with h1 | h1
            · exact absurd h1 hab
            · exact h1
          · exact hb x hx

theorem pairwise_sortStable {α : Type} (le : α → α → Bool)
    (htrans : ∀ a b c, le a b = true → le b c = true → le a c = true)
    (htotal : ∀ a b, le a b = true ∨ le b a = true) :
    ∀ l : List α, (sortStable le l).Pairwise (fun x y => le x y = true)
  | [] => List.Pairwise.nil
  | a :: as =>
      pairwise_insertStable le htrans htotal a _ (pairwise_sortStable le htrans htotal as)

theorem filter_insertStable_pos {α : Type} (le : α → α → Bool) (p : α → Bool) (a : α)
    (hpa : p a = true) (hle : ∀ b, p b = true → le a b = true) :
    ∀ l : List α, (insertStable le a l).filter p = a :: l.filter p
  | [] => by simp [insertStable, hpa]
  | b :: bs => by
      simp only [insertStable]
      split
      case isTrue hab => simp [List.filter_cons, hpa]
      case isFalse hab =>
          have hpb : p b = false := by
            cases hpbv : p b
            · rfl
            · exact absurd (hle b hpbv) hab
          simp [List.filter_cons, hpb, filter_insertStable_pos le p a hpa hle bs]

theorem filter_insertStable_neg {α : Type} (le : α → α → Bool) (p : α → Bool) (a : α)
    (hpa : p a = false) :
    ∀ l : List α, (insertStable le a l).filter p = l.filter p
  | [] => by simp [insertStable, hpa]
  | b :: bs => by
      simp only [insertStable]
      split
      · simp [List.filter_cons, hpa]
      · simp [List.filter_cons, filter_insertStable_neg le p a hpa bs]

theorem filter_sortStable {α : Type} (le : α → α → Bool) (p : α → Bool)
    (hp : ∀ a b, p a = true → p b = true → le a b = true) :
    ∀ l : List α, (sortStable le l).filter p = l.filter p
  | [] => rfl
  | a :: as => by
      simp only [sortStable]
      cases hpa : p a
      · rw [filter_insertStable_neg le p a hpa, filter_sortStable le p hp as]
        simp [List.filter_cons, hpa]
      · rw [filter_insertStable_pos le p a hpa (fun b hb => hp a b hpa hb),
            filter_sortStable le p hp as]
        simp [List.filter_cons, hpa]

theorem pairwise_sortStable_key {α : Type} (key : α → Int) (l : List α) :
    (sortStable (fun a b => decide (key a ≤ key b)) l).Pairwise
      (fun a b => key a ≤ key b) := by
  have h := pairwise_sortStable (fun a b => decide (key a ≤ key b))
    (fun a b c hab hbc => by
      simp only [decide_eq_true_eq] at *
      exact le_trans hab hbc)
    (fun a b => by
      simp only [decide_eq_true_eq]
      exact Int.le_total (key a) (key b))
    l
  exact h.imp (fun h => of_decide_eq_true h)

theorem filter_sortStable_key {α : Type} (key : α → Int) (l : List α) (k : Int) :
    (sortStable (fun a b => decide (key a ≤ key b)) l).filter (fun a => decide (key a = k)) =
      l.filter (fun a => decide (key a = k)) :=
  filter_sortStable _ _ (fun a b ha hb => by
    rw [of_decide_eq_true ha, of_decide_eq_true hb]
    simp) l

/-! ### First-encounter deduplication (order of Python dict keys) -/

/-- The list of first occurrences, in encounter order: the key order of an
insertion-ordered dictionary built over `l`. -/
def dedupFirst {α : Type} [DecidableEq α] : List α → List α
  | [] => []
  | a :: as => a :: (dedupFirst as).filter (fun b => decide (b ≠ a))

theorem mem_dedupFirst {α : Type} [DecidableEq α] {x : α} :
    ∀ {l : List α}, x ∈ dedupFirst l ↔ x ∈ l
  | [] => Iff.rfl
  | a :: as => by
      simp only [dedupFirst, List.mem_cons, List.mem_filter, decide_eq_true_eq,
        mem_dedupFirst (l := as)]
      constructor
      · rintro (rfl | ⟨h, _⟩)
        · exact Or.inl rfl
        · exact Or.inr h
      · rintro (rfl | h)
        · exact Or.inl rfl
        · by_cases hxa : x = a
          · exact Or.inl hxa
          · exact Or.inr ⟨h, hxa⟩

theorem nodup_dedupFirst {α : Type} [DecidableEq α] : ∀ l : List α, (dedupFirst l).Nodup
  | [] => List.Pairwise.nil
  | a :: as => by
      simp only [dedupFirst]
      refine List.Pairwise.cons ?_ (List.Nodup.filter _ (nodup_dedupFirst as))
      intro b hb
      have hba := (List.mem_filter.mp hb).2
      simp only [decide_eq_true_eq] at hba
      exact hba.symm

theorem dedupFirst_append_one {α : Type} [DecidableEq α] (a : α) :
    ∀ l : List α, dedupFirst (l ++ [a]) =
      if a ∈ l then dedupFirst l else dedupFirst l ++ [a]
  | [] => by simp [dedupFirst]
  | b :: bs => by
      have ih := dedupFirst_append_one a bs
      simp only [List.cons_append, dedupFirst, List.append_eq]
      rw [ih]
      by_cases hab : a ∈ bs
      · rw [if_pos hab, if_pos (List.mem_cons.mpr (Or.inr hab))]
      · rw [if_neg hab]
        by_cases heq : a = b
        · subst heq
          rw [if_pos (List.mem_cons.mpr (Or.inl rfl)), List.filter_append]
          simp
        · rw [if_neg (fun h => (List.mem_cons.mp h).elim heq hab), List.filter_append]
          simp [heq]

/-! ### Properties of the chapter grouping -/

theorem groupByChapter_concat (items : List Item) (it : Item) :
    groupByChapter (items ++ [it]) = addToGroup (groupByChapter items) it := by
  simp [groupByChapter, List.foldl_append]

theorem any_key_iff (acc : List (Option String × List Item)) (ch : Option String) :
    (acc.any (fun p => decide (p.1 = ch)) = true) ↔ ch ∈ acc.map Prod.fst := by
  simp [List.any_eq_true, List.mem_map]

theorem addToGroup_keys (acc : List (Option String × List Item)) (it : Item) :
    (addToGroup acc it).map Prod.fst =
      if it.chapter ∈ acc.map Prod.fst then acc.map Prod.fst
      else acc.map Prod.fst ++ [it.chapter] := by
  simp only [addToGroup]
  by_cases hc : acc.any (fun p => decide (p.1 = it.chapter)) = true
  · rw [if_pos hc, if_pos ((any_key_iff acc it.chapter).mp hc), List.map_map]
    refine List.map_congr_left ?_
    intro p _
    by_cases hp : p.1 = it.chapter <;> simp [hp]
  · rw [if_neg hc, if_neg (fun h => hc ((any_key_iff acc it.chapter).mpr h))]
    simp

theorem groupByChapter_invariant (items : List Item) :
    ((groupByChapter items).map Prod.fst = dedupFirst (items.map Item.chapter)) ∧
    (∀ p ∈ groupByChapter items,
      p.2 = items.filter (fun i => decide (i.chapter = p.1))) := by
  induction items using List.reverseRecOn with
  | nil =>
      refine ⟨rfl, ?_⟩
      intro p hp
      cases hp
  | append_singleton l it ih =>
      obtain ⟨ihk, ihb⟩ := ih
      rw [groupByChapter_concat]
      constructor
      · rw [addToGroup_keys, ihk, List.map_append, List.map_cons, List.map_nil,
          dedupFirst_append_one]
        by_cases hmem : it.chapter ∈ l.map Item.chapter
        · rw [if_pos (mem_dedupFirst.mpr hmem), if_pos hmem]
        · rw [if_neg (fun hc => hmem (mem_dedupFirst.mp hc)), if_neg hmem]
      · intro p hp
        simp only [addToGroup] at hp
        by_cases hc : (groupByChapter l).any (fun q => decide (q.1 = it.chapter)) = true
        · rw [if_pos hc] at hp
          rcases List.mem_map.mp hp with ⟨q, hq, hpq⟩
          subst hpq
          by_cases hq1 : q.1 = it.chapter
          · simp only [if_pos hq1, List.filter_append, ← ihb q hq]
            simp [hq1.symm]
          · simp only [if_neg hq1, List.filter_append, ← ihb q hq]
            have : it.chapter ≠ q.1 := fun h => hq1 h.symm
            simp [this]
        · rw [if_neg hc] at hp
          rcases List.mem_append.mp hp with hpg | hps
          · have hne : it.chapter ≠ p.1 := by
              intro h
              exact hc ((any_key_iff _ _).mpr (h ▸ List.mem_map_of_mem Prod.fst hpg))
            rw [List.filter_append, ← ihb p hpg]
            simp [hne]
          · rcases List.mem_singleton.mp hps with rfl
            have hnil : l.filter (fun i => decide (i.chapter = it.chapter)) = [] := by
              refine List.filter_eq_nil_iff.mpr ?_
              intro i hi hdec
              have : it.chapter ∈ (groupByChapter l).map Prod.fst := by
                rw [ihk]
                exact mem_dedupFirst.mpr (of_decide_eq_true hdec ▸ List.mem_map_of_mem Item.chapter hi)
              exact hc ((any_key_iff _ _).mpr this)
            rw [List.filter_append, hnil]
            simp

/-! ### The equivalent plain form of the color-label condition -/

theorem colorMark_eq (colors : Option (List String)) (c : Int) :
    colorMark colors c =
      (match colors with
       | some cs =>
           if 0 ≤ c ∧ c < (cs.length : Int) then cs.getD c.toNat "" ++ " " else ""
       | none => "") := by
  cases colors with
  | none => rfl
  | some cs =>
      simp only [colorMark]
      by_cases h : 0 ≤ c ∧ c < (cs.length : Int)
      · have h1 : decide (0 ≤ c) = true := decide_eq_true h.1
        have h2 : decide (c < (cs.length : Int)) = true := decide_eq_true h.2
        have hne : cs.isEmpty = false := by
          cases cs with
          | nil =>
              exfalso
              have := h.2
              simp at this
              omega
          | cons x xs => rfl
        rw [if_pos h]
        simp [hne, h1, h2]
      · rw [if_neg h]
        rcases not_and_or.mp h with h1 | h2
        · simp [decide_eq_false h1]
        · simp [decide_eq_false h2]

/-! ### Concrete instances used by the claim witnesses -/

/-- A row with every optional column absent. -/
def baseRow : Row :=
  { volumeid := "foo", text := none, annot := none, datecreated := none,
    datemodified := none, chapter_progress := none, booktitle := none, chapter := none,
    attribution := none, bookmarkid := none, start_offset := none, volume_index := none,
    color := none }

def bookFoo : Book := { volumeid := "foo", title := some "Foo", author := some "Bar", itemscount := 3 }

def rowB : Row :=
  { baseRow with
      text := some "B", chapter := some "Ch1", start_offset := some 5, volume_index := some 0 }

def rowA : Row :=
  { baseRow with
      text := some "A", chapter := some "Ch1", start_offset := some 2, volume_index := some 0 }

def rowC : Row :=
  { baseRow with
      text := some "C", annot := some "note", chapter := some "Ch2", start_offset := some 0,
      volume_index := some 1 }

/-- A constructed annotation-kind item (text and note both present). -/
def itDbg : Item := Item.ofRow rowC

def rowTextOnly : Row := { baseRow with text := some "x" }

def rowTrimmed : Row := { baseRow with text := some " x ", annot := some "" }

def rowWs : Row := { baseRow with text := some "   " }

def argsBoth : Args :=
  { list := true, bookid := some 2, debug := false, colors := none, no_colors := false }

/-! ### The claims -/

/-- C1: for every Item built by the extractor, `kind` is the 3-case rule applied, in
order, to the presence (truthiness) of its text and of its note: both present gives
`annotation`, text only gives `highlight`, otherwise `bookmark`; and no other field
of the row influences `kind` — any two rows agreeing on those two presence bits
yield the same `kind`. -/
theorem item_kind_three_case_rule (r1 r2 : Row) :
    ((Item.ofRow r1).kind =
      (if truthyOptStr (Item.ofRow r1).text && truthyOptStr (Item.ofRow r1).annot then
        "annotation"
      else if truthyOptStr (Item.ofRow r1).text then "highlight"
      else "bookmark")) ∧
    (truthyOptStr (Item.ofRow r1).text = truthyOptStr (Item.ofRow r2).text →
      truthyOptStr (Item.ofRow r1).annot = truthyOptStr (Item.ofRow r2).annot →
      (Item.ofRow r1).kind = (Item.ofRow r2).kind) := by
  constructor
  · rfl
  · intro ht ha
    show Item.kindOfRow r1 = Item.kindOfRow r2
    have ht' : truthyOptStr (Item.textOfRow r1) = truthyOptStr (Item.textOfRow r2) := ht
    have ha' : truthyOptStr r1.annot = truthyOptStr r2.annot := ha
    unfold Item.kindOfRow
    rw [ht', ha']

theorem item_kind_three_case_rule_witness :
    (Item.ofRow rowTextOnly).kind = (Item.ofRow rowTrimmed).kind :=
  (item_kind_three_case_rule rowTextOnly rowTrimmed).2 (by decide) (by decide)

/-- C10: classification uses truthiness, not null-ness: a row whose text column is a
whitespace-only string yields a `bookmark`, and a row whose text is non-empty after
trimming while its annotation column is the empty (non-null) string yields a
`highlight`, not an `annotation`. -/
theorem truthiness_not_nullness (r : Row) (s : String) :
    (r.text = some s → pyStrip s = "" → (Item.ofRow r).kind = "bookmark") ∧
    (r.text = some s → pyStrip s ≠ "" → r.annot = some "" →
      (Item.ofRow r).kind = "highlight") := by
  constructor
  · intro hts hws
    show Item.kindOfRow r = "bookmark"
    unfold Item.kindOfRow
    have htr : truthyOptStr (Item.textOfRow r) = false := by
      unfold Item.textOfRow
      by_cases he : s = ""
      · rw [hts, he]
        rfl
      · have : truthyOptStr r.text = true := by
          rw [hts]
          simp [truthyOptStr, he]
        rw [this, if_pos rfl, hts]
        simp [truthyOptStr, Option.getD, hws]
    rw [htr]
    rfl
  · intro hts hws hann
    show Item.kindOfRow r = "highlight"
    unfold Item.kindOfRow
    have hse : s ≠ "" := by
      intro he
      exact hws (by rw [he]; rfl)
    have htr : truthyOptStr (Item.textOfRow r) = true := by
      unfold Item.textOfRow
      have : truthyOptStr r.text = true := by
        rw [hts]
        simp [truthyOptStr, hse]
      rw [this, if_pos rfl, hts]
      simp [truthyOptStr, Option.getD, hws]
    have har : truthyOptStr r.annot = false := by
      rw [hann]
      rfl
    rw [htr, har]
    rfl

theorem truthiness_not_nullness_witness :
    (Item.ofRow rowWs).kind = "bookmark" ∧ (Item.ofRow rowTrimmed).kind = "highlight" :=
  ⟨(truthiness_not_nullness rowWs "   ").1 rfl (by decide),
   (truthiness_not_nullness rowTrimmed " x ").2 rfl (by decide) rfl⟩

/-- C3: the extractor selects the inner-join query variant exactly for schema
version 175 and the left-join variant for every other version, and the two
variants list the same columns in the same order. -/
theorem query_selection_by_version (v : Int) :
    ((selectItemsQuery v).join = JoinKind.inner ↔ v = 175) ∧
    ((selectItemsQuery v).join = JoinKind.left ↔ v ≠ 175) ∧
    QUERY_ITEMS_V175.columns = QUERY_ITEMS_V174.columns := by
  refine ⟨?_, ?_, rfl⟩ <;>
  · unfold selectItemsQuery
    split
    case isTrue h => simp [QUERY_ITEMS_V175, QUERY_ITEMS_V174, h]
    case isFalse h => simp [QUERY_ITEMS_V175, QUERY_ITEMS_V174, h]

/-- C8 counterexample: with both the listing flag and a book selection given, the
program does not print usage and exit with failure — it runs the listing. -/
theorem both_flags_lists_instead_of_usage :
    argsBoth.list = true ∧ argsBoth.bookid ≠ none ∧
      mainAction argsBoth = MainAction.listBooks ∧
      mainAction argsBoth ≠ MainAction.usageExit := by decide

/-- C8 (amended): the program prints usage and exits with failure exactly when
NEITHER the listing flag nor a book selection is given; when both are given the
listing flag takes precedence and the listing runs. -/
theorem usage_exit_iff_neither_flag (a : Args) :
    (mainAction a = MainAction.usageExit ↔ (a.list = false ∧ a.bookid = none)) ∧
    (a.list = true → mainAction a = MainAction.listBooks) := by
  rcases a with ⟨l, b, d, c, nc⟩
  cases l <;> cases b <;> simp [mainAction, truthyOptInt]
  split <;> simp

theorem usage_exit_iff_neither_flag_witness :
    mainAction argsBoth = MainAction.listBooks :=
  (usage_exit_iff_neither_flag argsBoth).2 rfl

/-- C6: the concrete scenario — book "Foo" by "Bar", chapter "Ch1" (volume index 0)
with highlights at offsets 5 ("B") and 2 ("A"), chapter "Ch2" (volume index 1) with
one annotation ("C" with note "note", offset 0) — renders, without color prefixes,
as the frontmatter, the level-1 heading, then Ch1 with the offset-2 item before the
offset-5 item, then Ch2 with the annotated item. -/
theorem scenario_two_chapters :
    export_markdown [bookFoo] [rowB, rowA, rowC] 1 false none =
      Except.ok ("---\ntitle: Foo\nauthor: Bar\n---\n# \"Foo\" by Bar\n" ++
        "\n### Ch1\n\n" ++ "> A\n\n" ++ "> B\n\n" ++
        "\n### Ch2\n\n" ++ "> C\n\n- note\n\n") := by
  rfl

/-- C4: a book-selection export fails with the out-of-range diagnostic (reporting
the valid range) exactly when the 1-based index is below 1 or above the number of
catalogued books, and succeeds, exporting the selected book, for every in-range
index. -/
theorem export_range_check (books : List Book) (rows : List Row) (book_id : Int)
    (d : Bool) (colors : Option (List String)) :
    (export_markdown books rows book_id d colors =
        Except.error ("Error: bookid must be between 1 and " ++ toString books.length) ↔
      (book_id < 1 ∨ book_id > (books.length : Int))) ∧
    (1 ≤ book_id → book_id ≤ (books.length : Int) →
      export_markdown books rows book_id d colors =
        Except.ok (renderBook (books.getD (book_id - 1).toNat defaultBook)
          ((rows.map Item.ofRow).filter
            (fun i => decide (i.volumeid = (books.getD (book_id - 1).toNat defaultBook).volumeid)))
          d colors)) := by
  constructor
  · constructor
    · intro h
      by_contra hn
      simp only [export_markdown] at h
      rw [if_neg hn] at h
      exact Except.noConfusion h
    · intro h
      simp only [export_markdown]
      rw [if_pos h]
  · intro h1 h2
    simp only [export_markdown]
    rw [if_neg (by omega)]

theorem export_range_check_witness :
    export_markdown [bookFoo] [] 1 false none =
      Except.ok (renderBook ([bookFoo].getD ((1 : Int) - 1).toNat defaultBook)
        ((([] : List Row).map Item.ofRow).filter
          (fun i => decide (i.volumeid = ([bookFoo].getD ((1 : Int) - 1).toNat defaultBook).volumeid)))
        false none) :=
  (export_range_check [bookFoo] [] 1 false none).2 (by decide) (by decide)

/-- Rendering a book whose item list is a single item: the header, the item's
chapter heading, then the item's own markdown. -/
theorem renderBook_singleton (book : Book) (it : Item) (d : Bool)
    (colors : Option (List String)) :
    renderBook book [it] d colors =
      Book.to_markdown book ++
        ("\n### " ++ pyShowOptStr it.chapter ++ ("\n\n" ++ it.markdown d colors)) := by
  have hg : groupByChapter [it] = [(it.chapter, [it])] := rfl
  have hkeys : sortedChapterKeys [(it.chapter, [it])] = [it.chapter] := rfl
  have hbucket : bucketOf [(it.chapter, [it])] it.chapter = [it] := by
    unfold bucketOf
    rw [List.find?_cons_of_pos _ (by simp)]
    rfl
  have hsort : sortBucket [it] = [it] := rfl
  simp only [renderBook, hg, hkeys, hbucket, hsort, List.map_cons, List.map_nil]
  simp [String.join, String.append_assoc, String.empty_append, String.append_empty]

/-- C9: an Item with no (truthy) text and no (truthy) note is classified bookmark,
renders as the empty string, and its chapter heading still appears in the output
when the chapter holds no other item. -/
theorem bookmark_contributes_nothing (r : Row) (book : Book) (d : Bool)
    (colors : Option (List String))
    (ht : truthyOptStr (Item.ofRow r).text = false)
    (ha : truthyOptStr (Item.ofRow r).annot = false) :
    (Item.ofRow r).kind = "bookmark" ∧
    (Item.ofRow r).markdown d colors = "" ∧
    renderBook book [Item.ofRow r] d colors =
      Book.to_markdown book ++ "\n### " ++ pyShowOptStr (Item.ofRow r).chapter ++ "\n\n" := by
  have hk : (Item.ofRow r).kind = "bookmark" := by
    show Item.kindOfRow r = "bookmark"
    have ht' : truthyOptStr (Item.textOfRow r) = false := ht
    have ha' : truthyOptStr r.annot = false := ha
    unfold Item.kindOfRow
    rw [ht', ha']
    rfl
  have hmd : (Item.ofRow r).markdown d colors = "" := by
    simp [Item.markdown, hk]
  refine ⟨hk, hmd, ?_⟩
  rw [renderBook_singleton, hmd]
  simp [String.append_assoc]

theorem bookmark_contributes_nothing_witness :
    (Item.ofRow baseRow).kind = "bookmark" ∧
    (Item.ofRow baseRow).markdown false none = "" ∧
    renderBook bookFoo [Item.ofRow baseRow] false none =
      Book.to_markdown bookFoo ++ "\n### " ++ pyShowOptStr (Item.ofRow baseRow).chapter ++
        "\n\n" :=
  bookmark_contributes_nothing baseRow bookFoo false none (by decide) (by decide)

/-- C5: the color label plus a separating space is prepended to the quoted text
line exactly when the colors option is non-null and `0 ≤ color < length colors`;
otherwise the line has no prefix, regardless of the raw value of `color` (negative
values and indices past the end of a short custom list included). -/
theorem color_label_prepended_iff (it : Item) (d : Bool) (colors : Option (List String))
    (hk : it.kind = "annotation" ∨ it.kind = "highlight") :
    ∃ rest, it.markdown d none = "> " ++ rest ∧
      it.markdown d colors =
        "> " ++ (match colors with
                 | some cs =>
                     if 0 ≤ it.color ∧ it.color < (cs.length : Int) then
                       cs.getD it.color.toNat "" ++ " "
                     else ""
                 | none => "") ++ rest := by
  rcases hk with hk | hk
  · refine ⟨pyShowOptStr it.text ++ ((if d then it.debugInfo else "") ++ ("\n\n- " ++
      (pyShowOptStr it.annot ++ "\n\n"))), ?_, ?_⟩
    · simp [Item.markdown, hk, colorMark, String.append_assoc]
    · rw [← colorMark_eq]
      simp [Item.markdown, hk, String.append_assoc]
  · refine ⟨pyShowOptStr it.text ++ ((if d then it.debugInfo else "") ++ "\n\n"), ?_, ?_⟩
    · simp [Item.markdown, hk, colorMark, String.append_assoc]
    · rw [← colorMark_eq]
      simp [Item.markdown, hk, String.append_assoc]

theorem color_label_prepended_iff_witness :
    ∃ rest, (Item.ofRow rowA).markdown false none = "> " ++ rest ∧
      (Item.ofRow rowA).markdown false (some ["Y", "R"]) =
        "> " ++ (match (some ["Y", "R"] : Option (List String)) with
                 | some cs =>
                     if 0 ≤ (Item.ofRow rowA).color ∧
                         (Item.ofRow rowA).color < (cs.length : Int) then
                       cs.getD (Item.ofRow rowA).color.toNat "" ++ " "
                     else ""
                 | none => "") ++ rest :=
  color_label_prepended_iff (Item.ofRow rowA) false (some ["Y", "R"]) (Or.inr (by decide))

/-- C7 counterexample: for a concrete annotation item with debug enabled, the
rendered block is NOT the debug-free block with the debug text appended at its end
— the debug text sits inside the quote, before the note paragraph. -/
theorem debug_text_not_at_block_end :
    itDbg.kind = "annotation" ∧
    ¬ (itDbg.markdown true none = itDbg.markdown false none ++ itDbg.debugInfo) := by
  constructor
  · rfl
  · decide

/-- C7 (amended): when debug is enabled, the debug text (exposing kind,
volume_index, start_offset, chapter_progress, created_at and color) is inserted
immediately after the quoted passage inside the quote block — before the closing
blank line and, for annotations, before the note paragraph — not appended at the
end of the item's rendered block. -/
theorem debug_text_follows_quote (it : Item) (colors : Option (List String))
    (hk : it.kind = "annotation" ∨ it.kind = "highlight") :
    ∃ rest,
      it.markdown false colors =
        ("> " ++ colorMark colors it.color ++ pyShowOptStr it.text) ++ rest ∧
      it.markdown true colors =
        ("> " ++ colorMark colors it.color ++ pyShowOptStr it.text) ++
          (it.debugInfo ++ rest) := by
  rcases hk with hk | hk
  · refine ⟨"\n\n- " ++ (pyShowOptStr it.annot ++ "\n\n"), ?_, ?_⟩ <;>
      simp [Item.markdown, hk, String.append_assoc]
  · refine ⟨"\n\n", ?_, ?_⟩ <;>
      simp [Item.markdown, hk, String.append_assoc]

theorem debug_text_follows_quote_witness :
    ∃ rest,
      itDbg.markdown false none =
        ("> " ++ colorMark none itDbg.color ++ pyShowOptStr itDbg.text) ++ rest ∧
      itDbg.markdown true none =
        ("> " ++ colorMark none itDbg.color ++ pyShowOptStr itDbg.text) ++
          (itDbg.debugInfo ++ rest) :=
  debug_text_follows_quote itDbg none (Or.inl rfl)

/-- C2: grouping partitions a book's items into nonempty buckets keyed by chapter
(the absent chapter is one distinct bucket): each bucket holds exactly the items
of its key in original order; the bucket keys are distinct and listed in
first-encounter order; within each bucket the sort is by ascending start_offset
and stable; and the buckets are ordered by ascending minimum volume_index, stably
with respect to first-encounter order. -/
theorem grouping_partitions_and_orders (items : List Item) :
    (∀ p ∈ groupByChapter items,
        p.2 = items.filter (fun i => decide (i.chapter = p.1)) ∧ p.2 ≠ []) ∧
    ((groupByChapter items).map Prod.fst = dedupFirst (items.map Item.chapter) ∧
      ((groupByChapter items).map Prod.fst).Nodup ∧
      ∀ i ∈ items, i.chapter ∈ (groupByChapter items).map Prod.fst) ∧
    (∀ p ∈ groupByChapter items,
        (sortBucket p.2).Perm p.2 ∧
        (sortBucket p.2).Pairwise (fun a b => a.start_offset ≤ b.start_offset) ∧
        ∀ k : Int, (sortBucket p.2).filter (fun i => decide (i.start_offset = k)) =
          p.2.filter (fun i => decide (i.start_offset = k))) ∧
    ((sortedChapterKeys (groupByChapter items)).Perm
        ((groupByChapter items).map Prod.fst) ∧
      (sortedChapterKeys (groupByChapter items)).Pairwise
        (fun c1 c2 =>
          chapterKey (groupByChapter items) c1 ≤ chapterKey (groupByChapter items) c2) ∧
      ∀ v : Int,
        (sortedChapterKeys (groupByChapter items)).filter
            (fun c => decide (chapterKey (groupByChapter items) c = v)) =
          ((groupByChapter items).map Prod.fst).filter
            (fun c => decide (chapterKey (groupByChapter items) c = v))) := by
  obtain ⟨hkeys, hbuckets⟩ := groupByChapter_invariant items
  refine ⟨?_, ⟨hkeys, ?_, ?_⟩, ?_, ⟨?_, ?_, ?_⟩⟩
  · intro p hp
    refine ⟨hbuckets p hp, ?_⟩
    have hp1 : p.1 ∈ (groupByChapter items).map Prod.fst := List.mem_map_of_mem Prod.fst hp
    rw [hkeys] at hp1
    rcases List.mem_map.mp (mem_dedupFirst.mp hp1) with ⟨i, hi, hic⟩
    rw [hbuckets p hp]
    intro hnil
    have hmem : i ∈ items.filter (fun i => decide (i.chapter = p.1)) :=
      List.mem_filter.mpr ⟨hi, decide_eq_true hic⟩
    rw [hnil] at hmem
    cases hmem
  · rw [hkeys]
    exact nodup_dedupFirst _
  · intro i hi
    rw [hkeys]
    exact mem_dedupFirst.mpr (List.mem_map_of_mem Item.chapter hi)
  · intro p _
    exact ⟨sortStable_perm _ _, pairwise_sortStable_key Item.start_offset p.2,
      fun k => filter_sortStable_key Item.start_offset p.2 k⟩
  · exact sortStable_perm _ _
  · exact pairwise_sortStable_key (chapterKey (groupByChapter items)) _
  · intro v
    exact filter_sortStable_key (chapterKey (groupByChapter items)) _ v

theorem grouping_partitions_and_orders_witness :
    (some "Ch1", [Item.ofRow rowB, Item.ofRow rowA]).2 =
        [Item.ofRow rowB, Item.ofRow rowA, Item.ofRow rowC].filter
          (fun i =>
            decide (i.chapter = (some "Ch1", [Item.ofRow rowB, Item.ofRow rowA]).1)) ∧
      (some "Ch1", [Item.ofRow rowB, Item.ofRow rowA]).2 ≠ [] :=
  (grouping_partitions_and_orders
      [Item.ofRow rowB, Item.ofRow rowA, Item.ofRow rowC]).1
    (some "Ch1", [Item.ofRow rowB, Item.ofRow rowA]) (by decide)

end ExportKobo
